import Mathlib

/-!
Shallow embedding of sprocketnes `mapper.rs`: the NES cartridge-mapper
subsystem (NROM / SxROM / TxROM chips behind the `Mapper` capability),
together with theorems settling the specification claims.

Modelling conventions: machine integers (u8, u16) are `Nat` with explicit
`% 256` wherever u8 overflow or wrap-around can occur; Rust array indexing,
which aborts out of bounds, is `List` `getElem?` returning `Option`
(`none` models the abort), and `fail!` is `Option.none` / `Except.error`.
-/

namespace Mapper

/-- Parsed ROM image (external collaborator): PRG bytes, CHR bytes, and the
header fields the mappers consult. `prg_rom_size` is the header's u8 count
of 16 KB PRG banks; `mapper` is the mapper id. -/
structure Rom where
  prg : List Nat
  chr : List Nat
  prg_rom_size : Nat
  mapper : Nat
deriving DecidableEq

/-! ## Mapper 0 (NROM): fixed mapping -/

/-- Mapper 0 (NROM) chip: owns the ROM, no switching state. -/
structure Nrom where
  rom : Rom
deriving DecidableEq

namespace Nrom

/-- Source `Nrom::prg_loadb`: below $8000 reads 0; otherwise the PRG image
is indexed through a 0x7fff mask (image larger than 16 KB) or a 0x3fff mask
(16 KB image, mirrored). -/
def prg_loadb (m : Nrom) (addr : Nat) : Option Nat :=
  if addr < 0x8000 then some 0
  else if 16384 < m.rom.prg.length then m.rom.prg[addr &&& 0x7fff]?
  else m.rom.prg[addr &&& 0x3fff]?

/-- Source `Nrom::prg_storeb`: a no-op (cannot store to PRG-ROM). -/
def prg_storeb (m : Nrom) (_addr _val : Nat) : Nrom := m

/-- Source `Nrom::chr_loadb`: indexes the ROM's CHR bytes by the raw
address, with no mask or bound check. -/
def chr_loadb (m : Nrom) (addr : Nat) : Option Nat :=
  m.rom.chr[addr]?

/-- Source `Nrom::chr_storeb`: a no-op (cannot store to CHR-ROM). -/
def chr_storeb (m : Nrom) (_addr _val : Nat) : Nrom := m

end Nrom

/-! ## Mapper 1 (SxROM / MMC1): shift-register banking -/

/-- Nametable mirroring mode decoded from `ctrl` bits 0-1. -/
inductive Mirroring
  | OneScreenLower
  | OneScreenUpper
  | Vertical
  | Horizontal
deriving DecidableEq

/-- PRG bank mode decoded from `ctrl` bits 2-3. -/
inductive SxPrgBankMode
  | Switch32K
  | FixFirstBank
  | FixLastBank
deriving DecidableEq

/-- CHR bank mode decoded from `ctrl` bit 4. -/
inductive SxChrBankMode
  | Switch8K
  | SwitchTwo4K
deriving DecidableEq

namespace SxCtrl

/-- Source `SxCtrl::mirroring`: bits 0-1. The source's final `fail!` arm is
unreachable because the scrutinee is masked to two bits, so the catch-all
arm here is exactly the value 3. -/
def mirroring (ctrl : Nat) : Mirroring :=
  match ctrl &&& 3 with
  | 0 => .OneScreenLower
  | 1 => .OneScreenUpper
  | 2 => .Vertical
  | _ => .Horizontal

/-- Source `SxCtrl::prg_rom_mode`: bits 2-3; encodings 0 and 1 both decode
to Switch32K. The source's `fail!` arm is unreachable (two-bit scrutinee),
so the catch-all arm here is exactly the value 3. -/
def prg_rom_mode (ctrl : Nat) : SxPrgBankMode :=
  match (ctrl >>> 2) &&& 3 with
  | 0 => .Switch32K
  | 1 => .Switch32K
  | 2 => .FixFirstBank
  | _ => .FixLastBank

/-- Source `SxCtrl::chr_rom_mode`: bit 4. -/
def chr_rom_mode (ctrl : Nat) : SxChrBankMode :=
  if (ctrl >>> 4) &&& 1 = 0 then .Switch8K else .SwitchTwo4K

end SxCtrl

/-- Mapper 1 (SxROM/MMC1) chip state: the four registers of `SxRegs`
(`ctrl`, `chr_bank_0`, `chr_bank_1`, `prg_bank`), the shift accumulator,
the write count, and the 8 KB PRG-RAM / CHR-RAM backing stores. -/
structure SxRom where
  rom : Rom
  ctrl : Nat
  chr_bank_0 : Nat
  chr_bank_1 : Nat
  prg_bank : Nat
  accum : Nat
  write_count : Nat
  prg_ram : List Nat
  chr_ram : List Nat
deriving DecidableEq

namespace SxRom

/-- Source `SxRom::new`. -/
def new (rom : Rom) : SxRom where
  rom := rom
  ctrl := 3 <<< 2
  chr_bank_0 := 0
  chr_bank_1 := 0
  prg_bank := 0
  accum := 0
  write_count := 0
  prg_ram := List.replicate 8192 0
  chr_ram := List.replicate 8192 0

/-- Bank selected by `SxRom::prg_loadb` for $8000-$BFFF. -/
def low_bank (s : SxRom) : Nat :=
  match SxCtrl.prg_rom_mode s.ctrl with
  | .Switch32K => s.prg_bank &&& 0xfe
  | .FixFirstBank => 0
  | .FixLastBank => s.prg_bank

/-- Bank selected by `SxRom::prg_loadb` for $C000-$FFFF. The source's
`prg_rom_size - 1` is u8 subtraction, modelled as `(x + 255) % 256`. -/
def high_bank (s : SxRom) : Nat :=
  match SxCtrl.prg_rom_mode s.ctrl with
  | .Switch32K => (s.prg_bank &&& 0xfe) ||| 1
  | .FixFirstBank => s.prg_bank
  | .FixLastBank => (s.rom.prg_rom_size + 255) % 256

/-- Source `SxRom::prg_loadb`: the PRG index is
`(bank * 16384) | (addr & 0x3fff)`, unchecked in the source. -/
def prg_loadb (s : SxRom) (addr : Nat) : Option Nat :=
  if addr < 0x8000 then some 0
  else if addr < 0xc000 then
    s.rom.prg[(s.low_bank * 16384) ||| (addr &&& 0x3fff)]?
  else
    s.rom.prg[(s.high_bank * 16384) ||| (addr &&& 0x3fff)]?

/-- Source `SxRom::prg_storeb`: the serial shift-register write protocol.
All u8 arithmetic is reduced `% 256`. -/
def prg_storeb (s : SxRom) (addr val : Nat) : SxRom :=
  if addr < 0x8000 then s
  else if val &&& 0x80 ≠ 0 then
    { s with write_count := 0, accum := 0, ctrl := s.ctrl ||| (3 <<< 2) }
  else
    let accum := (s.accum ||| ((val &&& 1) <<< s.write_count)) % 256
    let wc := (s.write_count + 1) % 256
    if wc = 5 then
      if addr ≤ 0x9fff then
        { s with write_count := 0, accum := 0, ctrl := accum }
      else if addr ≤ 0xbfff then
        { s with write_count := 0, accum := 0, chr_bank_0 := accum }
      else if addr ≤ 0xdfff then
        { s with write_count := 0, accum := 0, chr_bank_1 := accum }
      else
        { s with write_count := 0, accum := 0, prg_bank := accum }
    else
      { s with write_count := wc, accum := accum }

/-- Source `SxRom::chr_loadb`: raw unchecked index into the 8 KB CHR-RAM. -/
def chr_loadb (s : SxRom) (addr : Nat) : Option Nat :=
  s.chr_ram[addr]?

/-- Source `SxRom::chr_storeb`: `chr_ram[addr] = val`; indexing aborts
(`none`) out of bounds. -/
def chr_storeb (s : SxRom) (addr val : Nat) : Option SxRom :=
  if addr < s.chr_ram.length then
    some { s with chr_ram := s.chr_ram.set addr val }
  else none

end SxRom

/-! ## Mapper 4 (TxROM / MMC3): indexed banking -/

/-- PRG bank mode decoded from `bank_select` bit 6. -/
inductive TxPrgBankMode
  | Swappable8000
  | SwappableC000
deriving DecidableEq

namespace TxBankSelect

/-- Source `TxBankSelect::bank_update_select`: low 3 bits. -/
def bank_update_select (b : Nat) : Nat := b &&& 0x7

/-- Source `TxBankSelect::prg_bank_mode`: bit 6. -/
def prg_bank_mode (b : Nat) : TxPrgBankMode :=
  if b &&& 0x40 = 0 then .Swappable8000 else .SwappableC000

end TxBankSelect

/-- Mapper 4 (TxROM/MMC3) chip state. The fixed-size bank index arrays
`[u8 * 2]` / `[u8 * 4]` / `[u8 * 2]` are modelled as tuples (every source
index into them is produced by an exhaustive range match, hence in range). -/
structure TxRom where
  rom : Rom
  bank_select : Nat
  prg_ram : List Nat
  chr_banks_2k : Nat × Nat
  chr_banks_1k : Nat × Nat × Nat × Nat
  prg_banks : Nat × Nat
deriving DecidableEq

namespace TxRom

/-- Source `TxRom::new`. -/
def new (rom : Rom) : TxRom where
  rom := rom
  bank_select := 0
  prg_ram := List.replicate 8192 0
  chr_banks_2k := (0, 0)
  chr_banks_1k := (0, 0, 0, 0)
  prg_banks := (0, 0)

/-- Source `TxRom::prg_bank_count`: `prg_rom_size * 2` in u8. -/
def prg_bank_count (t : TxRom) : Nat := (t.rom.prg_rom_size * 2) % 256

/-- Source `TxRom::prg_loadb`. The u8 subtractions `prg_bank_count - 2`
and `prg_bank_count - 1` are modelled as `+ 254` / `+ 255` then `% 256`. -/
def prg_loadb (t : TxRom) (addr : Nat) : Option Nat :=
  if addr < 0x6000 then some 0
  else if addr < 0x8000 then t.prg_ram[addr &&& 0x1fff]?
  else if addr < 0xa000 then
    let bank := match TxBankSelect.prg_bank_mode t.bank_select with
      | .Swappable8000 => t.prg_banks.1
      | .SwappableC000 => (t.prg_bank_count + 254) % 256
    t.rom.prg[(bank * 8192) ||| (addr &&& 0x1fff)]?
  else if addr < 0xc000 then
    t.rom.prg[(t.prg_banks.2 * 8192) ||| (addr &&& 0x1fff)]?
  else if addr < 0xe000 then
    let bank := match TxBankSelect.prg_bank_mode t.bank_select with
      | .Swappable8000 => (t.prg_bank_count + 254) % 256
      | .SwappableC000 => t.prg_banks.1
    t.rom.prg[(bank * 8192) ||| (addr &&& 0x1fff)]?
  else
    t.rom.prg[(((t.prg_bank_count + 255) % 256) * 8192) ||| (addr &&& 0x1fff)]?

/-- Source `TxRom::prg_storeb`. PRG-RAM indexing aborts (`none`) out of
bounds; the bank-data dispatch's `fail!()` arm is `none` (the source match
arms `0..1`, `2..5`, `6..7` are unrolled into the eight values they cover,
with the source's index arithmetic `sel`, `sel - 2`, `sel - 6` applied). -/
def prg_storeb (t : TxRom) (addr val : Nat) : Option TxRom :=
  if addr < 0x6000 then some t
  else if addr < 0x8000 then
    if addr &&& 0x1fff < t.prg_ram.length then
      some { t with prg_ram := t.prg_ram.set (addr &&& 0x1fff) val }
    else none
  else if addr < 0xa000 then
    if addr &&& 1 = 0 then some { t with bank_select := val }
    else
      match TxBankSelect.bank_update_select t.bank_select with
      | 0 => some { t with chr_banks_2k := (val, t.chr_banks_2k.2) }
      | 1 => some { t with chr_banks_2k := (t.chr_banks_2k.1, val) }
      | 2 => some { t with chr_banks_1k :=
          (val, t.chr_banks_1k.2.1, t.chr_banks_1k.2.2.1, t.chr_banks_1k.2.2.2) }
      | 3 => some { t with chr_banks_1k :=
          (t.chr_banks_1k.1, val, t.chr_banks_1k.2.2.1, t.chr_banks_1k.2.2.2) }
      | 4 => some { t with chr_banks_1k :=
          (t.chr_banks_1k.1, t.chr_banks_1k.2.1, val, t.chr_banks_1k.2.2.2) }
      | 5 => some { t with chr_banks_1k :=
          (t.chr_banks_1k.1, t.chr_banks_1k.2.1, t.chr_banks_1k.2.2.1, val) }
      | 6 => some { t with prg_banks := (val, t.prg_banks.2) }
      | 7 => some { t with prg_banks := (t.prg_banks.1, val) }
      | _ => none
  else some t

/-- Source `TxRom::chr_loadb`: raw unchecked index into the ROM's CHR
bytes (banking unimplemented in the source). -/
def chr_loadb (t : TxRom) (addr : Nat) : Option Nat :=
  t.rom.chr[addr]?

/-- Source `TxRom::chr_storeb`: a no-op (CHR-RAM unimplemented). -/
def chr_storeb (t : TxRom) (_addr _val : Nat) : TxRom := t

end TxRom

/-! ## The factory -/

/-- Chip constructed by the factory, behind the `Mapper` capability. -/
inductive MapperChip
  | nrom (m : Nrom)
  | sxrom (m : SxRom)
  | txrom (m : TxRom)
deriving DecidableEq

/-- Source `Mapper::with_mapper`: dispatch on the header's mapper id; any
other id aborts with "unsupported mapper", modelled as `Except.error`. -/
def with_mapper (rom : Rom) : Except String MapperChip :=
  match rom.mapper with
  | 0 => .ok (.nrom ⟨rom⟩)
  | 1 => .ok (.sxrom (SxRom.new rom))
  | 4 => .ok (.txrom (TxRom.new rom))
  | _ => .error "unsupported mapper"

/-! ## Concrete fixtures for witnesses and counterexamples -/

/-- A 16 KB mapper-0 ROM whose PRG bytes are all 7 and CHR bytes all 9. -/
def rom16 : Rom :=
  { prg := List.replicate 16384 7, chr := List.replicate 8192 9
    prg_rom_size := 1, mapper := 0 }

/-- The NROM chip over `rom16`. -/
def nrom16 : Nrom := { rom := rom16 }

/-- A one-bank (16 KB) mapper-1 ROM. -/
def romSx : Rom :=
  { prg := List.replicate 16384 0, chr := List.replicate 8192 0
    prg_rom_size := 1, mapper := 1 }

/-- A 16 KB mapper-4 ROM. -/
def romTx : Rom :=
  { prg := List.replicate 16384 3, chr := List.replicate 8192 0
    prg_rom_size := 1, mapper := 4 }

/-- A ROM declaring an unsupported mapper id. -/
def rom99 : Rom :=
  { prg := [], chr := [], prg_rom_size := 0, mapper := 99 }

/-- Offset into the PRG image computed by `SxRom::prg_loadb` for addresses
at or above $8000 (the source's index expression, verbatim). -/
def SxRom.prg_offset (s : SxRom) (addr : Nat) : Nat :=
  if addr < 0xc000 then (s.low_bank * 16384) ||| (addr &&& 0x3fff)
  else (s.high_bank * 16384) ||| (addr &&& 0x3fff)

/-- Offset into the PRG image computed by `TxRom::prg_loadb` for addresses
at or above $8000 (the source's index expression, verbatim). -/
def TxRom.prg_offset (t : TxRom) (addr : Nat) : Nat :=
  if addr < 0xa000 then
    (match TxBankSelect.prg_bank_mode t.bank_select with
      | .Swappable8000 => t.prg_banks.1
      | .SwappableC000 => (t.prg_bank_count + 254) % 256) * 8192
      ||| (addr &&& 0x1fff)
  else if addr < 0xc000 then (t.prg_banks.2 * 8192) ||| (addr &&& 0x1fff)
  else if addr < 0xe000 then
    (match TxBankSelect.prg_bank_mode t.bank_select with
      | .Swappable8000 => (t.prg_bank_count + 254) % 256
      | .SwappableC000 => t.prg_banks.1) * 8192
      ||| (addr &&& 0x1fff)
  else (((t.prg_bank_count + 255) % 256) * 8192) ||| (addr &&& 0x1fff)

/-- State of the mapper-1 chip over the one-bank ROM after a completed
five-write shift sequence to $E000 committing prg_bank = 1 — a bank that
does not exist on this ROM. -/
def sxAfter : SxRom :=
  (((((SxRom.new romSx).prg_storeb 0xe000 1).prg_storeb 0xe000 0).prg_storeb
      0xe000 0).prg_storeb 0xe000 0).prg_storeb 0xe000 0

/-! ## Helper lemmas -/

/-- Indexing a list is defined exactly on in-range indices. -/
theorem getElem?_isSome_iff {α : Type} (l : List α) (i : Nat) :
    l[i]?.isSome ↔ i < l.length := by
  constructor
  · intro h
    by_contra hge
    rw [List.getElem?_eq_none (by omega)] at h
    simp at h
  · intro h
    rw [List.getElem?_eq_getElem h]
    rfl

/-- OR of a bank shifted past the window mask with a value below the mask
is plain addition. -/
theorem bank_lor_eq_add {n : Nat} (a : Nat) {b : Nat} (hb : b < 2 ^ n) :
    (a * 2 ^ n) ||| b = a * 2 ^ n + b := by
  rw [Nat.mul_comm a (2 ^ n)]
  exact (Nat.mul_add_lt_is_or hb a).symm

theorem and_x3fff_lt (addr : Nat) : addr &&& 0x3fff < 16384 := by
  have h : addr &&& 0x3fff ≤ 0x3fff := Nat.and_le_right
  omega

theorem and_x1fff_lt (addr : Nat) : addr &&& 0x1fff < 8192 := by
  have h : addr &&& 0x1fff ≤ 0x1fff := Nat.and_le_right
  omega

/-- The 16 KB-bank offset arithmetic of SxROM, written additively. -/
theorem lor_16384 (bank addr : Nat) :
    (bank * 16384) ||| (addr &&& 0x3fff) = bank * 16384 + (addr &&& 0x3fff) := by
  have h14 : (16384 : Nat) = 2 ^ 14 := by norm_num
  rw [h14]
  exact bank_lor_eq_add bank (h14 ▸ and_x3fff_lt addr)

/-- The 8 KB-bank offset arithmetic of TxROM, written additively. -/
theorem lor_8192 (bank addr : Nat) :
    (bank * 8192) ||| (addr &&& 0x1fff) = bank * 8192 + (addr &&& 0x1fff) := by
  have h13 : (8192 : Nat) = 2 ^ 13 := by norm_num
  rw [h13]
  exact bank_lor_eq_add bank (h13 ▸ and_x1fff_lt addr)

/-- Masking with 0x3fff is reduction mod 16384. -/
theorem and_x3fff_eq_mod (x : Nat) : x &&& 0x3fff = x % 16384 := by
  have p : (0x3fff : Nat) = 2 ^ 14 - 1 := by norm_num
  rw [p, Nat.and_pow_two_sub_one_eq_mod]

/-- Length of the fixture PRG image. -/
theorem rom16_prg_length : rom16.prg.length = 16384 := by
  simp only [rom16, List.length_replicate]

/-- Length of the fixture CHR image. -/
theorem rom16_chr_length : rom16.chr.length = 8192 := by
  simp only [rom16, List.length_replicate]

/-- The CHR-RAM of a fresh SxROM chip is 8 KB. -/
theorem sx_new_chr_ram_length (rom : Rom) :
    (SxRom.new rom).chr_ram.length = 8192 := by
  simp only [SxRom.new, List.length_replicate]

/-- The PRG-RAM of a fresh TxROM chip is 8 KB. -/
theorem tx_new_prg_ram_length (rom : Rom) :
    (TxRom.new rom).prg_ram.length = 8192 := by
  simp only [TxRom.new, List.length_replicate]

/-- Length of the one-bank mapper-1 fixture PRG image. -/
theorem romSx_prg_length : romSx.prg.length = 16384 := by
  simp only [romSx, List.length_replicate]

/-! ## Claim theorems -/

/-- C8: FixedMapping (NROM) `prg_loadb` reads 0 below $8000; at or above
$8000 it reads the PRG byte at `addr &&& 0x7fff` when the image exceeds
16 KB and at `addr &&& 0x3fff` otherwise, so a 16 KB image mirrors
$8000-$BFFF at $C000-$FFFF; the store operations are no-ops. -/
theorem nrom_fixed_mapping_spec (m : Nrom) (addr k val : Nat) :
    (addr < 0x8000 → m.prg_loadb addr = some 0) ∧
    (0x8000 ≤ addr → 16384 < m.rom.prg.length →
      m.prg_loadb addr = m.rom.prg[addr &&& 0x7fff]?) ∧
    (0x8000 ≤ addr → m.rom.prg.length ≤ 16384 →
      m.prg_loadb addr = m.rom.prg[addr &&& 0x3fff]?) ∧
    (m.rom.prg.length = 16384 → k < 0x4000 →
      m.prg_loadb (0x8000 + k) = m.prg_loadb (0xc000 + k)) ∧
    m.prg_storeb addr val = m ∧ m.chr_storeb addr val = m := by
  refine ⟨?_, ?_, ?_, ?_, rfl, rfl⟩
  · intro h
    simp [Nrom.prg_loadb, h]
  · intro h1 h2
    rw [Nrom.prg_loadb, if_neg (by omega), if_pos h2]
  · intro h1 h2
    rw [Nrom.prg_loadb, if_neg (by omega), if_neg (by omega)]
  · intro hlen hk
    have e1 : (0x8000 + k) &&& 0x3fff = k := by
      rw [and_x3fff_eq_mod]; omega
    have e2 : (0xc000 + k) &&& 0x3fff = k := by
      rw [and_x3fff_eq_mod]; omega
    rw [Nrom.prg_loadb, Nrom.prg_loadb, if_neg (by omega), if_neg (by omega),
      if_neg (by omega), if_neg (by omega), e1, e2]

/-- Witness for C8 at the concrete 16 KB chip `nrom16`. -/
theorem nrom_fixed_mapping_spec_witness :
    nrom16.rom.prg.length = 16384 ∧ (3 : Nat) < 0x4000 ∧
    nrom16.prg_loadb (0x8000 + 3) = nrom16.prg_loadb (0xc000 + 3) :=
  ⟨rom16_prg_length, by norm_num,
    (nrom_fixed_mapping_spec nrom16 0 3 0).2.2.2.1 rom16_prg_length
      (by norm_num)⟩

/-- Totality of `TxRom::prg_storeb` over an 8 KB PRG-RAM: every branch,
including the bank-data dispatch, yields a state (the `fail!()` arm is
unreachable because the selector is masked to three bits). -/
theorem tx_prg_storeb_isSome (t : TxRom) (addr val : Nat)
    (hram : t.prg_ram.length = 8192) : (t.prg_storeb addr val).isSome := by
  rw [TxRom.prg_storeb]
  split
  · rfl
  split
  · rw [if_pos (by have := and_x1fff_lt addr; omega)]
    rfl
  split
  · split
    · rfl
    · have h7 : TxBankSelect.bank_update_select t.bank_select ≤ 7 :=
        Nat.and_le_right
      generalize TxBankSelect.bank_update_select t.bank_select = sel at h7
      interval_cases sel <;> rfl
  · rfl

/-- C1 counterexample: `chr_loadb` is not total over 16-bit addresses. On
the concrete NROM chip with an 8 KB CHR image, the read at 0x2000 aborts
(index out of bounds) instead of returning a defined byte. -/
theorem chr_loadb_aborts_at_0x2000 : nrom16.chr_loadb 0x2000 = none := by
  rw [Nrom.chr_loadb]
  exact List.getElem?_eq_none (by rw [show nrom16.rom.chr = rom16.chr from rfl, rom16_chr_length])

/-- C1 amended: the PRG write side is total — `prg_storeb` of every chip
completes for every address, with out-of-window writes ignored (below
$8000 for NROM and SxROM, below $6000 and at or above $A000 for TxROM) —
and `prg_loadb` of every chip reads 0 below its window ($8000 for NROM
and SxROM, $6000 for TxROM); but `chr_loadb` of every chip and
`chr_storeb` of the ShiftRegisterBanking chip are defined exactly for
addresses below the CHR backing length (0x2000 for the 8 KB stores), and
abort at or above it. -/
theorem mapper_ops_totality_amended (m : Nrom) (s : SxRom) (t : TxRom)
    (addr val : Nat) (hram : t.prg_ram.length = 8192) :
    (addr < 0x8000 → m.prg_loadb addr = some 0) ∧
    m.prg_storeb addr val = m ∧
    m.chr_storeb addr val = m ∧
    ((m.chr_loadb addr).isSome ↔ addr < m.rom.chr.length) ∧
    (addr < 0x8000 → s.prg_loadb addr = some 0) ∧
    (addr < 0x8000 → s.prg_storeb addr val = s) ∧
    ((s.chr_loadb addr).isSome ↔ addr < s.chr_ram.length) ∧
    ((s.chr_storeb addr val).isSome ↔ addr < s.chr_ram.length) ∧
    (s.chr_ram.length = 8192 → 0x2000 ≤ addr → s.chr_loadb addr = none) ∧
    (addr < 0x6000 → t.prg_loadb addr = some 0) ∧
    (addr < 0x6000 → t.prg_storeb addr val = some t) ∧
    (0xa000 ≤ addr → t.prg_storeb addr val = some t) ∧
    ((t.chr_loadb addr).isSome ↔ addr < t.rom.chr.length) ∧
    t.chr_storeb addr val = t ∧
    (t.prg_storeb addr val).isSome := by
  refine ⟨?_, rfl, rfl, ?_, ?_, ?_, ?_, ?_, ?_, ?_, ?_, ?_, ?_, rfl, ?_⟩
  · intro h
    simp [Nrom.prg_loadb, h]
  · exact getElem?_isSome_iff _ _
  · intro h
    rw [SxRom.prg_loadb, if_pos h]
  · intro h
    rw [SxRom.prg_storeb, if_pos h]
  · exact getElem?_isSome_iff _ _
  · rw [SxRom.chr_storeb]
    constructor
    · intro h
      by_contra hge
      rw [if_neg hge] at h
      simp at h
    · intro h
      rw [if_pos h]
      rfl
  · intro hlen hge
    rw [SxRom.chr_loadb]
    exact List.getElem?_eq_none (by omega)
  · intro h
    rw [TxRom.prg_loadb, if_pos h]
  · intro h
    rw [TxRom.prg_storeb, if_pos h]
  · intro h
    rw [TxRom.prg_storeb, if_neg (by omega), if_neg (by omega),
      if_neg (by omega)]
  · exact getElem?_isSome_iff _ _
  · exact tx_prg_storeb_isSome t addr val hram

/-- Witness for C1's amended theorem at concrete chips and address 0x2000. -/
theorem mapper_ops_totality_amended_witness :
    (SxRom.new romSx).chr_ram.length = 8192 ∧
    (0x2000 : Nat) ≤ 0x2000 ∧
    (SxRom.new romSx).chr_loadb 0x2000 = none :=
  ⟨sx_new_chr_ram_length romSx, le_refl _,
    ((mapper_ops_totality_amended nrom16 (SxRom.new romSx) (TxRom.new romTx)
        0x2000 0 (tx_new_prg_ram_length romTx)).2.2.2.2.2.2.2.2.1)
      (sx_new_chr_ram_length romSx) (le_refl _)⟩

/-- C2 counterexample: bank indices are not reduced modulo the bank count.
From a freshly constructed ShiftRegisterBanking chip on a one-bank (16 KB)
ROM, committing prg_bank = 1 by a five-write sequence makes `prg_loadb`
at 0x8000 (fix-last mode, bank 1, offset 16384) index out of bounds. -/
theorem sxrom_unchecked_bank_counterexample : sxAfter.prg_loadb 0x8000 = none := by
  have hlb : sxAfter.low_bank = 1 := by decide
  have hr : sxAfter.rom = romSx := rfl
  rw [SxRom.prg_loadb, if_neg (by omega), if_pos (by omega), hlb, hr,
    show ((1 * 16384) ||| (0x8000 &&& 0x3fff)) = 16384 from by decide]
  exact List.getElem?_eq_none (by rw [romSx_prg_length])

/-- C2 amended: the PRG byte offset computed by `prg_loadb` takes the bank
index directly from the registers, with no reduction modulo the bank
count; for any state and any address at or above 0x8000 the load is
defined exactly when that offset lies within the PRG byte sequence, and a
committed out-of-range bank makes the load abort. -/
theorem prg_offset_bounds_amended (s : SxRom) (t : TxRom) (addr : Nat)
    (h : 0x8000 ≤ addr) :
    ((s.prg_loadb addr).isSome ↔ s.prg_offset addr < s.rom.prg.length) ∧
    ((t.prg_loadb addr).isSome ↔ t.prg_offset addr < t.rom.prg.length) := by
  constructor
  · rw [SxRom.prg_loadb, SxRom.prg_offset, if_neg (by omega)]
    by_cases hc : addr < 0xc000
    · rw [if_pos hc, if_pos hc]
      exact getElem?_isSome_iff _ _
    · rw [if_neg hc, if_neg hc]
      exact getElem?_isSome_iff _ _
  · rw [TxRom.prg_loadb, TxRom.prg_offset, if_neg (by omega), if_neg (by omega)]
    by_cases h1 : addr < 0xa000
    · rw [if_pos h1, if_pos h1]
      exact getElem?_isSome_iff _ _
    rw [if_neg h1, if_neg h1]
    by_cases h2 : addr < 0xc000
    · rw [if_pos h2, if_pos h2]
      exact getElem?_isSome_iff _ _
    rw [if_neg h2, if_neg h2]
    by_cases h3 : addr < 0xe000
    · rw [if_pos h3, if_pos h3]
      exact getElem?_isSome_iff _ _
    rw [if_neg h3, if_neg h3]
    exact getElem?_isSome_iff _ _

/-- Witness for C2's amended theorem at the fresh mapper-1 chip. -/
theorem prg_offset_bounds_amended_witness :
    (0x8000 : Nat) ≤ 0x8000 ∧
    (((SxRom.new romSx).prg_loadb 0x8000).isSome ↔
      (SxRom.new romSx).prg_offset 0x8000 < (SxRom.new romSx).rom.prg.length) :=
  ⟨le_refl _,
    (prg_offset_bounds_amended (SxRom.new romSx) (TxRom.new romTx) 0x8000
      (le_refl _)).1⟩

/-! ## SxROM shift-protocol helper lemmas -/

/-- Right shift distributes over OR. -/
theorem lor_shiftRight (a b n : Nat) : (a ||| b) >>> n = (a >>> n) ||| (b >>> n) := by
  apply Nat.eq_of_testBit_eq
  intro i
  simp [Nat.testBit_shiftRight, Nat.testBit_or]

/-- ORing in the fix-last-bank mask forces ctrl bits 2-3 to 3. -/
theorem or12_mode (c : Nat) : ((c ||| 12) >>> 2) &&& 3 = 3 := by
  rw [lor_shiftRight, show (12 : Nat) >>> 2 = 3 from by decide,
    Nat.and_distrib_right, show (3 : Nat) &&& 3 = 3 from by decide]
  have h : (c >>> 2) &&& 3 ≤ 3 := Nat.and_le_right
  set y := (c >>> 2) &&& 3 with hy
  interval_cases y <;> decide

/-- ORing in the fix-last-bank mask leaves the mirroring bits alone. -/
theorem and3_or12 (c : Nat) : (c ||| 12) &&& 3 = c &&& 3 := by
  rw [Nat.and_distrib_right, show (12 : Nat) &&& 3 = 0 from by decide, Nat.or_zero]

/-- ORing in the fix-last-bank mask leaves bit 4 and above alone. -/
theorem lor12_shiftRight4 (c : Nat) : (c ||| 12) >>> 4 = c >>> 4 := by
  rw [lor_shiftRight, show (12 : Nat) >>> 4 = 0 from by decide, Nat.or_zero]

/-- Ctrl values whose bits 2-3 decode to 3 are in fix-last-bank mode. -/
theorem prg_rom_mode_eq_fixLast {c : Nat} (h : (c >>> 2) &&& 3 = 3) :
    SxCtrl.prg_rom_mode c = .FixLastBank := by
  unfold SxCtrl.prg_rom_mode
  rw [h]

/-- Reset semantics of `SxRom::prg_storeb` (high bit of the value set). -/
theorem sx_reset_eq (s : SxRom) (addr val : Nat) (h : 0x8000 ≤ addr)
    (g : val &&& 0x80 ≠ 0) :
    s.prg_storeb addr val =
      { s with write_count := 0, accum := 0, ctrl := s.ctrl ||| (3 <<< 2) } := by
  rw [SxRom.prg_storeb, if_neg (by omega), if_pos g]

/-- A masked low bit shifted by at most 4 stays below 32. -/
theorem and1_shift_lt (v k : Nat) (hk : k ≤ 4) : (v &&& 1) <<< k < 32 := by
  have h1 : v &&& 1 ≤ 1 := Nat.and_le_right
  have h2 : (2 : Nat) ^ k ≤ 2 ^ 4 := Nat.pow_le_pow_right (by norm_num) hk
  have h3 : (v &&& 1) * 2 ^ k ≤ 1 * 2 ^ 4 := Nat.mul_le_mul h1 h2
  rw [Nat.shiftLeft_eq]
  omega

/-- OR keeps 5-bit values 5-bit. -/
theorem lor_lt_32 {a b : Nat} (ha : a < 32) (hb : b < 32) : a ||| b < 32 := by
  have h32 : (32 : Nat) = 2 ^ 5 := by norm_num
  rw [h32] at ha hb ⊢
  exact Nat.or_lt_two_pow ha hb

/-- Non-final qualifying write of the shift protocol: OR the value's low
bit into the accumulator at the current write count, bump the count. -/
theorem prg_storeb_shift_step (s : SxRom) (addr val : Nat)
    (h : 0x8000 ≤ addr) (g : val &&& 0x80 = 0)
    (hacc : s.accum < 256) (hw : s.write_count < 4) :
    s.prg_storeb addr val =
      { s with write_count := s.write_count + 1,
               accum := s.accum ||| ((val &&& 1) <<< s.write_count) } := by
  rw [SxRom.prg_storeb, if_neg (by omega), if_neg (fun hh => hh g)]
  have hsh : (val &&& 1) <<< s.write_count < 256 := by
    have := and1_shift_lt val s.write_count (by omega)
    omega
  have haccm : (s.accum ||| ((val &&& 1) <<< s.write_count)) < 256 := by
    have h256 : (256 : Nat) = 2 ^ 8 := by norm_num
    rw [h256] at hacc hsh ⊢
    exact Nat.or_lt_two_pow hacc hsh
  simp only [Nat.mod_eq_of_lt haccm,
    Nat.mod_eq_of_lt (show s.write_count + 1 < 256 by omega),
    if_neg (show ¬s.write_count + 1 = 5 by omega)]

/-- Fifth qualifying write of the shift protocol: commit the accumulator
into the register selected by the write address, clear count and
accumulator. -/
theorem prg_storeb_commit_step (s : SxRom) (addr val : Nat)
    (h : 0x8000 ≤ addr) (g : val &&& 0x80 = 0)
    (hacc : s.accum < 256) (hw : s.write_count = 4) :
    s.prg_storeb addr val =
      if addr ≤ 0x9fff then
        { s with write_count := 0, accum := 0,
                 ctrl := s.accum ||| ((val &&& 1) <<< 4) }
      else if addr ≤ 0xbfff then
        { s with write_count := 0, accum := 0,
                 chr_bank_0 := s.accum ||| ((val &&& 1) <<< 4) }
      else if addr ≤ 0xdfff then
        { s with write_count := 0, accum := 0,
                 chr_bank_1 := s.accum ||| ((val &&& 1) <<< 4) }
      else
        { s with write_count := 0, accum := 0,
                 prg_bank := s.accum ||| ((val &&& 1) <<< 4) } := by
  have hsh : (val &&& 1) <<< 4 < 256 := by
    have := and1_shift_lt val 4 (le_refl 4)
    omega
  have haccm : (s.accum ||| ((val &&& 1) <<< 4)) < 256 := by
    have h256 : (256 : Nat) = 2 ^ 8 := by norm_num
    rw [h256] at hacc hsh ⊢
    exact Nat.or_lt_two_pow hacc hsh
  rw [SxRom.prg_storeb, if_neg (by omega), if_neg (fun hh => hh g), hw,
    Nat.mod_eq_of_lt haccm]
  rfl

/-- Non-final qualifying write, stated on a state with literal count and
accumulator fields. -/
theorem shift_step_lit (s : SxRom) (addr val x k : Nat)
    (h : 0x8000 ≤ addr) (g : val &&& 0x80 = 0) (hx : x < 32) (hk : k < 4) :
    ({ s with write_count := k, accum := x } : SxRom).prg_storeb addr val =
      { s with write_count := k + 1, accum := x ||| ((val &&& 1) <<< k) } := by
  rw [prg_storeb_shift_step _ addr val h g (by show x < 256; omega)
    (by show k < 4; exact hk)]

/-- Fifth qualifying write, stated on a state with literal count and
accumulator fields. -/
theorem shift_commit_lit (s : SxRom) (addr val x : Nat)
    (h : 0x8000 ≤ addr) (g : val &&& 0x80 = 0) (hx : x < 32) :
    ({ s with write_count := 4, accum := x } : SxRom).prg_storeb addr val =
      if addr ≤ 0x9fff then
        { s with write_count := 0, accum := 0, ctrl := x ||| ((val &&& 1) <<< 4) }
      else if addr ≤ 0xbfff then
        { s with write_count := 0, accum := 0,
                 chr_bank_0 := x ||| ((val &&& 1) <<< 4) }
      else if addr ≤ 0xdfff then
        { s with write_count := 0, accum := 0,
                 chr_bank_1 := x ||| ((val &&& 1) <<< 4) }
      else
        { s with write_count := 0, accum := 0,
                 prg_bank := x ||| ((val &&& 1) <<< 4) } := by
  rw [prg_storeb_commit_step _ addr val h g (by show x < 256; omega) rfl]

/-- C3: from a state with write count 0 and empty accumulator, five
consecutive qualifying writes (address at or above $8000, value high bit
clear) OR each value's low bit into the accumulator at the position given
by the running write count, and the fifth write commits
b0 | b1<<1 | b2<<2 | b3<<3 | b4<<4 into the register selected by the fifth
write's address ($8000-$9FFF ctrl, $A000-$BFFF chr_bank_0, $C000-$DFFF
chr_bank_1, $E000-$FFFF prg_bank), resetting count and accumulator to 0;
writes with address below $8000 are ignored. -/
theorem sxrom_shift_commit (s s5 : SxRom)
    (a0 a1 a2 a3 a4 v0 v1 v2 v3 v4 : Nat)
    (hw : s.write_count = 0) (ha : s.accum = 0)
    (h0 : 0x8000 ≤ a0) (h1 : 0x8000 ≤ a1) (h2 : 0x8000 ≤ a2)
    (h3 : 0x8000 ≤ a3) (h4 : 0x8000 ≤ a4)
    (g0 : v0 &&& 0x80 = 0) (g1 : v1 &&& 0x80 = 0) (g2 : v2 &&& 0x80 = 0)
    (g3 : v3 &&& 0x80 = 0) (g4 : v4 &&& 0x80 = 0)
    (hs5 : s5 = ((((s.prg_storeb a0 v0).prg_storeb a1 v1).prg_storeb
        a2 v2).prg_storeb a3 v3).prg_storeb a4 v4) :
    s5.write_count = 0 ∧ s5.accum = 0 ∧
    (a4 ≤ 0x9fff → s5.ctrl =
      (v0 &&& 1) ||| ((v1 &&& 1) <<< 1) ||| ((v2 &&& 1) <<< 2) |||
        ((v3 &&& 1) <<< 3) ||| ((v4 &&& 1) <<< 4)) ∧
    (0xa000 ≤ a4 → a4 ≤ 0xbfff → s5.chr_bank_0 =
      (v0 &&& 1) ||| ((v1 &&& 1) <<< 1) ||| ((v2 &&& 1) <<< 2) |||
        ((v3 &&& 1) <<< 3) ||| ((v4 &&& 1) <<< 4)) ∧
    (0xc000 ≤ a4 → a4 ≤ 0xdfff → s5.chr_bank_1 =
      (v0 &&& 1) ||| ((v1 &&& 1) <<< 1) ||| ((v2 &&& 1) <<< 2) |||
        ((v3 &&& 1) <<< 3) ||| ((v4 &&& 1) <<< 4)) ∧
    (0xe000 ≤ a4 → s5.prg_bank =
      (v0 &&& 1) ||| ((v1 &&& 1) <<< 1) ||| ((v2 &&& 1) <<< 2) |||
        ((v3 &&& 1) <<< 3) ||| ((v4 &&& 1) <<< 4)) ∧
    (∀ b w : Nat, b < 0x8000 → s.prg_storeb b w = s) := by
  subst hs5
  have b0 : (v0 &&& 1) < 32 := by
    have hb : v0 &&& 1 ≤ 1 := Nat.and_le_right
    omega
  have b1 := and1_shift_lt v1 1 (by norm_num)
  have b2 := and1_shift_lt v2 2 (by norm_num)
  have b3 := and1_shift_lt v3 3 (by norm_num)
  have x1lt : ((v0 &&& 1) ||| ((v1 &&& 1) <<< 1)) < 32 := lor_lt_32 b0 b1
  have x2lt := lor_lt_32 x1lt b2
  have x3lt := lor_lt_32 x2lt b3
  have e0 : s.prg_storeb a0 v0 = { s with write_count := 1, accum := v0 &&& 1 } := by
    rw [prg_storeb_shift_step s a0 v0 h0 g0 (by omega) (by omega), hw, ha,
      Nat.shiftLeft_zero, Nat.zero_or]
  have e1 : (s.prg_storeb a0 v0).prg_storeb a1 v1 =
      { s with write_count := 2,
               accum := (v0 &&& 1) ||| ((v1 &&& 1) <<< 1) } := by
    rw [e0, shift_step_lit s a1 v1 (v0 &&& 1) 1 h1 g1 b0 (by norm_num)]
  have e2 : ((s.prg_storeb a0 v0).prg_storeb a1 v1).prg_storeb a2 v2 =
      { s with write_count := 3,
               accum := (v0 &&& 1) ||| ((v1 &&& 1) <<< 1) |||
                 ((v2 &&& 1) <<< 2) } := by
    rw [e1, shift_step_lit s a2 v2 _ 2 h2 g2 x1lt (by norm_num)]
  have e3 : (((s.prg_storeb a0 v0).prg_storeb a1 v1).prg_storeb
      a2 v2).prg_storeb a3 v3 =
      { s with write_count := 4,
               accum := (v0 &&& 1) ||| ((v1 &&& 1) <<< 1) |||
                 ((v2 &&& 1) <<< 2) ||| ((v3 &&& 1) <<< 3) } := by
    rw [e2, shift_step_lit s a3 v3 _ 3 h3 g3 x2lt (by norm_num)]
  have e4 : ((((s.prg_storeb a0 v0).prg_storeb a1 v1).prg_storeb
      a2 v2).prg_storeb a3 v3).prg_storeb a4 v4 =
      if a4 ≤ 0x9fff then
        { s with write_count := 0, accum := 0,
                 ctrl := (v0 &&& 1) ||| ((v1 &&& 1) <<< 1) |||
                   ((v2 &&& 1) <<< 2) ||| ((v3 &&& 1) <<< 3) |||
                   ((v4 &&& 1) <<< 4) }
      else if a4 ≤ 0xbfff then
        { s with write_count := 0, accum := 0,
                 chr_bank_0 := (v0 &&& 1) ||| ((v1 &&& 1) <<< 1) |||
                   ((v2 &&& 1) <<< 2) ||| ((v3 &&& 1) <<< 3) |||
                   ((v4 &&& 1) <<< 4) }
      else if a4 ≤ 0xdfff then
        { s with write_count := 0, accum := 0,
                 chr_bank_1 := (v0 &&& 1) ||| ((v1 &&& 1) <<< 1) |||
                   ((v2 &&& 1) <<< 2) ||| ((v3 &&& 1) <<< 3) |||
                   ((v4 &&& 1) <<< 4) }
      else
        { s with write_count := 0, accum := 0,
                 prg_bank := (v0 &&& 1) ||| ((v1 &&& 1) <<< 1) |||
                   ((v2 &&& 1) <<< 2) ||| ((v3 &&& 1) <<< 3) |||
                   ((v4 &&& 1) <<< 4) } := by
    rw [e3, shift_commit_lit s a4 v4 _ h4 g4 x3lt]
  refine ⟨?_, ?_, ?_, ?_, ?_, ?_, ?_⟩
  · rw [e4]
    split
    · rfl
    split
    · rfl
    split
    · rfl
    rfl
  · rw [e4]
    split
    · rfl
    split
    · rfl
    split
    · rfl
    rfl
  · intro hle
    rw [e4, if_pos hle]
  · intro hge hle
    rw [e4, if_neg (by omega), if_pos hle]
  · intro hge hle
    rw [e4, if_neg (by omega), if_neg (by omega), if_pos hle]
  · intro hge
    rw [e4, if_neg (by omega), if_neg (by omega), if_neg (by omega)]
  · intro b w hb
    rw [SxRom.prg_storeb, if_pos hb]

/-- Witness for C3: the spec's end-to-end scenario — writes 1,0,0,0,0 to
$E000 on a fresh mapper-1 chip commit prg_bank = 1, and a write below
$8000 is ignored. -/
theorem sxrom_shift_commit_witness :
    (SxRom.new romSx).write_count = 0 ∧ (SxRom.new romSx).accum = 0 ∧
    (0x8000 : Nat) ≤ 0xe000 ∧ ((1 : Nat) &&& 0x80 = 0) ∧
    ((0 : Nat) &&& 0x80 = 0) ∧ sxAfter.prg_bank = 1 ∧
    (SxRom.new romSx).prg_storeb 0x7fff 1 = SxRom.new romSx := by
  refine ⟨rfl, rfl, by omega, by decide, by decide, ?_, ?_⟩
  · have hp := (sxrom_shift_commit (SxRom.new romSx) sxAfter
        0xe000 0xe000 0xe000 0xe000 0xe000 1 0 0 0 0
        rfl rfl (by omega) (by omega) (by omega) (by omega) (by omega)
        (by decide) (by decide) (by decide) (by decide) (by decide)
        rfl).2.2.2.2.2.1 (by omega)
    rw [hp]
    decide
  · exact (sxrom_shift_commit (SxRom.new romSx) sxAfter
        0xe000 0xe000 0xe000 0xe000 0xe000 1 0 0 0 0
        rfl rfl (by omega) (by omega) (by omega) (by omega) (by omega)
        (by decide) (by decide) (by decide) (by decide) (by decide)
        rfl).2.2.2.2.2.2 0x7fff 1 (by omega)

/-- C4: a store at or above $8000 whose value has the high bit set resets
the shift sequence: write count and accumulator go to 0, ctrl is replaced
by ctrl OR the fix-last-bank mask (3 << 2) so its PRG mode decodes to
fix-last-bank while the mirroring bits (0-1) and the CHR-mode bit (4)
keep their previous values, and no bit is shifted into the accumulator
(the whole state change is exactly the record update shown). -/
theorem sxrom_reset_write (s : SxRom) (addr val : Nat)
    (h : 0x8000 ≤ addr) (g : val &&& 0x80 ≠ 0) :
    s.prg_storeb addr val =
      { s with write_count := 0, accum := 0, ctrl := s.ctrl ||| (3 <<< 2) } ∧
    (s.prg_storeb addr val).write_count = 0 ∧
    (s.prg_storeb addr val).accum = 0 ∧
    SxCtrl.prg_rom_mode (s.prg_storeb addr val).ctrl = .FixLastBank ∧
    (s.prg_storeb addr val).ctrl &&& 3 = s.ctrl &&& 3 ∧
    SxCtrl.mirroring (s.prg_storeb addr val).ctrl = SxCtrl.mirroring s.ctrl ∧
    ((s.prg_storeb addr val).ctrl >>> 4) &&& 1 = (s.ctrl >>> 4) &&& 1 ∧
    SxCtrl.chr_rom_mode (s.prg_storeb addr val).ctrl =
      SxCtrl.chr_rom_mode s.ctrl := by
  have e := sx_reset_eq s addr val h g
  have h12 : (3 <<< 2 : Nat) = 12 := by decide
  refine ⟨e, by rw [e], by rw [e], ?_, ?_, ?_, ?_, ?_⟩
  · rw [e]
    apply prg_rom_mode_eq_fixLast
    show ((s.ctrl ||| (3 <<< 2)) >>> 2) &&& 3 = 3
    rw [h12]
    exact or12_mode s.ctrl
  · rw [e]
    show (s.ctrl ||| (3 <<< 2)) &&& 3 = s.ctrl &&& 3
    rw [h12]
    exact and3_or12 s.ctrl
  · rw [e]
    show SxCtrl.mirroring (s.ctrl ||| (3 <<< 2)) = SxCtrl.mirroring s.ctrl
    rw [h12]
    unfold SxCtrl.mirroring
    rw [and3_or12]
  · rw [e]
    show ((s.ctrl ||| (3 <<< 2)) >>> 4) &&& 1 = (s.ctrl >>> 4) &&& 1
    rw [h12, lor12_shiftRight4]
  · rw [e]
    show SxCtrl.chr_rom_mode (s.ctrl ||| (3 <<< 2)) = SxCtrl.chr_rom_mode s.ctrl
    rw [h12]
    unfold SxCtrl.chr_rom_mode
    rw [lor12_shiftRight4]

/-- Witness for C4 on a chip whose ctrl has mirroring bits 01 and CHR
mode bit set, reset by a high-bit write to $C123. -/
theorem sxrom_reset_write_witness :
    (0x8000 : Nat) ≤ 0xc123 ∧ ((0x90 : Nat) &&& 0x80 ≠ 0) ∧
    SxCtrl.prg_rom_mode
      (({ SxRom.new romSx with ctrl := 0x11 } : SxRom).prg_storeb
        0xc123 0x90).ctrl = .FixLastBank := by
  refine ⟨by omega, by decide, ?_⟩
  exact (sxrom_reset_write { SxRom.new romSx with ctrl := 0x11 } 0xc123 0x90
    (by omega) (by decide)).2.2.2.1

/-- C10: a reset write (address at or above $8000, value high bit set)
changes nothing but write count, accumulator, and ctrl: the bank
registers, PRG-RAM, CHR-RAM and the ROM image are untouched, for every
state and every such address. -/
theorem sxrom_reset_frame (s : SxRom) (addr val : Nat)
    (h : 0x8000 ≤ addr) (g : val &&& 0x80 ≠ 0) :
    (s.prg_storeb addr val).chr_bank_0 = s.chr_bank_0 ∧
    (s.prg_storeb addr val).chr_bank_1 = s.chr_bank_1 ∧
    (s.prg_storeb addr val).prg_bank = s.prg_bank ∧
    (s.prg_storeb addr val).prg_ram = s.prg_ram ∧
    (s.prg_storeb addr val).chr_ram = s.chr_ram ∧
    (s.prg_storeb addr val).rom = s.rom := by
  have e := sx_reset_eq s addr val h g
  rw [e]
  exact ⟨rfl, rfl, rfl, rfl, rfl, rfl⟩

/-- Witness for C10: the reset write at $E000 leaves prg_bank and the
RAMs of a fresh chip unchanged. -/
theorem sxrom_reset_frame_witness :
    (0x8000 : Nat) ≤ 0xe000 ∧ ((0xff : Nat) &&& 0x80 ≠ 0) ∧
    ((SxRom.new romSx).prg_storeb 0xe000 0xff).chr_ram =
      (SxRom.new romSx).chr_ram := by
  refine ⟨by omega, by decide, ?_⟩
  exact (sxrom_reset_frame (SxRom.new romSx) 0xe000 0xff (by omega)
    (by decide)).2.2.2.2.1

/-- Decode table for ctrl bits 2-3: encodings 0 and 1 both mean
switch-32k, 2 means fix-first, 3 means fix-last. -/
theorem prg_rom_mode_cases (c : Nat) :
    ((c >>> 2) &&& 3 = 0 ∨ (c >>> 2) &&& 3 = 1 ↔
      SxCtrl.prg_rom_mode c = .Switch32K) ∧
    ((c >>> 2) &&& 3 = 2 ↔ SxCtrl.prg_rom_mode c = .FixFirstBank) ∧
    ((c >>> 2) &&& 3 = 3 ↔ SxCtrl.prg_rom_mode c = .FixLastBank) := by
  have hb : (c >>> 2) &&& 3 ≤ 3 := Nat.and_le_right
  unfold SxCtrl.prg_rom_mode
  set y := (c >>> 2) &&& 3
  interval_cases y <;> refine ⟨?_, ?_, ?_⟩ <;> decide

/-- C5: SxROM `prg_loadb` reads 0 below $8000 and otherwise the PRG byte
at offset bank * 16384 + (addr & 0x3FFF), where for $8000-$BFFF the bank
is prg_bank with low bit cleared (switch-32k), 0 (fix-first), or prg_bank
(fix-last), and for $C000-$FFFF it is the paired odd bank (switch-32k),
prg_bank (fix-first), or the PRG bank count minus 1 (fix-last); the mode
is decoded from ctrl bits 2-3, encodings 0 and 1 both being switch-32k. -/
theorem sxrom_prg_loadb_spec (s : SxRom) (addr : Nat) :
    (addr < 0x8000 → s.prg_loadb addr = some 0) ∧
    (0x8000 ≤ addr → addr < 0xc000 →
      (SxCtrl.prg_rom_mode s.ctrl = .Switch32K →
        s.prg_loadb addr =
          s.rom.prg[(s.prg_bank &&& 0xfe) * 16384 + (addr &&& 0x3fff)]?) ∧
      (SxCtrl.prg_rom_mode s.ctrl = .FixFirstBank →
        s.prg_loadb addr = s.rom.prg[0 * 16384 + (addr &&& 0x3fff)]?) ∧
      (SxCtrl.prg_rom_mode s.ctrl = .FixLastBank →
        s.prg_loadb addr =
          s.rom.prg[s.prg_bank * 16384 + (addr &&& 0x3fff)]?)) ∧
    (0xc000 ≤ addr →
      (SxCtrl.prg_rom_mode s.ctrl = .Switch32K →
        s.prg_loadb addr =
          s.rom.prg[((s.prg_bank &&& 0xfe) ||| 1) * 16384 +
            (addr &&& 0x3fff)]?) ∧
      (SxCtrl.prg_rom_mode s.ctrl = .FixFirstBank →
        s.prg_loadb addr =
          s.rom.prg[s.prg_bank * 16384 + (addr &&& 0x3fff)]?) ∧
      (SxCtrl.prg_rom_mode s.ctrl = .FixLastBank →
        0 < s.rom.prg_rom_size → s.rom.prg_rom_size ≤ 255 →
        s.prg_loadb addr =
          s.rom.prg[(s.rom.prg_rom_size - 1) * 16384 + (addr &&& 0x3fff)]?)) ∧
    ((s.ctrl >>> 2) &&& 3 = 0 ∨ (s.ctrl >>> 2) &&& 3 = 1 ↔
      SxCtrl.prg_rom_mode s.ctrl = .Switch32K) ∧
    ((s.ctrl >>> 2) &&& 3 = 2 ↔ SxCtrl.prg_rom_mode s.ctrl = .FixFirstBank) ∧
    ((s.ctrl >>> 2) &&& 3 = 3 ↔ SxCtrl.prg_rom_mode s.ctrl = .FixLastBank) := by
  refine ⟨?_, ?_, ?_, (prg_rom_mode_cases s.ctrl).1,
    (prg_rom_mode_cases s.ctrl).2.1, (prg_rom_mode_cases s.ctrl).2.2⟩
  · intro h
    rw [SxRom.prg_loadb, if_pos h]
  · intro h1 h2
    refine ⟨?_, ?_, ?_⟩ <;> intro hm <;>
      rw [SxRom.prg_loadb, if_neg (by omega), if_pos h2]
    · have hlb : s.low_bank = s.prg_bank &&& 0xfe := by
        unfold SxRom.low_bank
        rw [hm]
      rw [hlb, lor_16384]
    · have hlb : s.low_bank = 0 := by
        unfold SxRom.low_bank
        rw [hm]
      rw [hlb, lor_16384]
    · have hlb : s.low_bank = s.prg_bank := by
        unfold SxRom.low_bank
        rw [hm]
      rw [hlb, lor_16384]
  · intro h1
    refine ⟨?_, ?_, ?_⟩
    · intro hm
      rw [SxRom.prg_loadb, if_neg (by omega), if_neg (by omega)]
      have hhb : s.high_bank = (s.prg_bank &&& 0xfe) ||| 1 := by
        unfold SxRom.high_bank
        rw [hm]
      rw [hhb, lor_16384]
    · intro hm
      rw [SxRom.prg_loadb, if_neg (by omega), if_neg (by omega)]
      have hhb : s.high_bank = s.prg_bank := by
        unfold SxRom.high_bank
        rw [hm]
      rw [hhb, lor_16384]
    · intro hm hp1 hp2
      rw [SxRom.prg_loadb, if_neg (by omega), if_neg (by omega)]
      have hhb : s.high_bank = s.rom.prg_rom_size - 1 := by
        unfold SxRom.high_bank
        rw [hm]
        show (s.rom.prg_rom_size + 255) % 256 = s.rom.prg_rom_size - 1
        omega
      rw [hhb, lor_16384]

/-- Witness for C5: the fresh mapper-1 chip is in fix-last mode, and its
$8000-window read uses bank prg_bank. -/
theorem sxrom_prg_loadb_spec_witness :
    SxCtrl.prg_rom_mode (SxRom.new romSx).ctrl = .FixLastBank ∧
    (0x8000 : Nat) ≤ 0x8123 ∧ (0x8123 : Nat) < 0xc000 ∧
    (SxRom.new romSx).prg_loadb 0x8123 =
      (SxRom.new romSx).rom.prg[(SxRom.new romSx).prg_bank * 16384 +
        (0x8123 &&& 0x3fff)]? := by
  refine ⟨by decide, by omega, by omega, ?_⟩
  exact ((sxrom_prg_loadb_spec (SxRom.new romSx) 0x8123).2.1 (by omega)
    (by omega)).2.2 (by decide)

/-- C6: TxROM `prg_storeb` ignores addresses below $6000, writes PRG-RAM
at addr & 0x1FFF for $6000-$7FFF, replaces bank_select on even
$8000-$9FFF addresses, dispatches odd $8000-$9FFF writes on bank_select's
low 3 bits (0-1 the 2 KB CHR slots, 2-5 the 1 KB CHR slots at index
select-2, 6-7 the 8 KB PRG slots at index select-6, anything else an
unreachable failure branch — the operation always completes), and accepts
but ignores addresses at or above $A000. -/
theorem txrom_prg_storeb_spec (t : TxRom) (addr val : Nat)
    (hram : t.prg_ram.length = 8192) :
    (addr < 0x6000 → t.prg_storeb addr val = some t) ∧
    (0x6000 ≤ addr → addr < 0x8000 →
      t.prg_storeb addr val =
        some { t with prg_ram := t.prg_ram.set (addr &&& 0x1fff) val }) ∧
    (0x8000 ≤ addr → addr < 0xa000 → addr % 2 = 0 →
      t.prg_storeb addr val = some { t with bank_select := val }) ∧
    (0x8000 ≤ addr → addr < 0xa000 → addr % 2 = 1 →
      (t.bank_select &&& 7 = 0 → t.prg_storeb addr val =
        some { t with chr_banks_2k := (val, t.chr_banks_2k.2) }) ∧
      (t.bank_select &&& 7 = 1 → t.prg_storeb addr val =
        some { t with chr_banks_2k := (t.chr_banks_2k.1, val) }) ∧
      (t.bank_select &&& 7 = 2 → t.prg_storeb addr val =
        some { t with chr_banks_1k :=
          (val, t.chr_banks_1k.2.1, t.chr_banks_1k.2.2.1,
            t.chr_banks_1k.2.2.2) }) ∧
      (t.bank_select &&& 7 = 3 → t.prg_storeb addr val =
        some { t with chr_banks_1k :=
          (t.chr_banks_1k.1, val, t.chr_banks_1k.2.2.1,
            t.chr_banks_1k.2.2.2) }) ∧
      (t.bank_select &&& 7 = 4 → t.prg_storeb addr val =
        some { t with chr_banks_1k :=
          (t.chr_banks_1k.1, t.chr_banks_1k.2.1, val,
            t.chr_banks_1k.2.2.2) }) ∧
      (t.bank_select &&& 7 = 5 → t.prg_storeb addr val =
        some { t with chr_banks_1k :=
          (t.chr_banks_1k.1, t.chr_banks_1k.2.1, t.chr_banks_1k.2.2.1,
            val) }) ∧
      (t.bank_select &&& 7 = 6 → t.prg_storeb addr val =
        some { t with prg_banks := (val, t.prg_banks.2) }) ∧
      (t.bank_select &&& 7 = 7 → t.prg_storeb addr val =
        some { t with prg_banks := (t.prg_banks.1, val) })) ∧
    (0xa000 ≤ addr → t.prg_storeb addr val = some t) ∧
    (t.prg_storeb addr val).isSome := by
  refine ⟨?_, ?_, ?_, ?_, ?_, tx_prg_storeb_isSome t addr val hram⟩
  · intro h
    rw [TxRom.prg_storeb, if_pos h]
  · intro h1 h2
    rw [TxRom.prg_storeb, if_neg (by omega), if_pos (by omega),
      if_pos (by have := and_x1fff_lt addr; omega)]
  · intro h1 h2 h3
    have he : addr &&& 1 = 0 := by
      rw [Nat.and_one_is_mod]
      omega
    rw [TxRom.prg_storeb, if_neg (by omega), if_neg (by omega),
      if_pos (by omega), if_pos he]
  · intro h1 h2 h3
    have ho : ¬addr &&& 1 = 0 := by
      rw [Nat.and_one_is_mod]
      omega
    have base : ∀ k : Nat, t.bank_select &&& 7 = k →
        t.prg_storeb addr val =
          (match k with
            | 0 => some { t with chr_banks_2k := (val, t.chr_banks_2k.2) }
            | 1 => some { t with chr_banks_2k := (t.chr_banks_2k.1, val) }
            | 2 => some { t with chr_banks_1k :=
                (val, t.chr_banks_1k.2.1, t.chr_banks_1k.2.2.1,
                  t.chr_banks_1k.2.2.2) }
            | 3 => some { t with chr_banks_1k :=
                (t.chr_banks_1k.1, val, t.chr_banks_1k.2.2.1,
                  t.chr_banks_1k.2.2.2) }
            | 4 => some { t with chr_banks_1k :=
                (t.chr_banks_1k.1, t.chr_banks_1k.2.1, val,
                  t.chr_banks_1k.2.2.2) }
            | 5 => some { t with chr_banks_1k :=
                (t.chr_banks_1k.1, t.chr_banks_1k.2.1,
                  t.chr_banks_1k.2.2.1, val) }
            | 6 => some { t with prg_banks := (val, t.prg_banks.2) }
            | 7 => some { t with prg_banks := (t.prg_banks.1, val) }
            | _ => none) := by
      intro k hk
      rw [TxRom.prg_storeb, if_neg (by omega), if_neg (by omega),
        if_pos (by omega), if_neg ho, TxBankSelect.bank_update_select, hk]
    exact ⟨base 0, base 1, base 2, base 3, base 4, base 5, base 6, base 7⟩
  · intro h
    rw [TxRom.prg_storeb, if_neg (by omega), if_neg (by omega),
      if_neg (by omega)]

/-- Witness for C6: selecting slot 6 then writing 5 through an odd
$8000-$9FFF address stores 5 into the first 8 KB PRG bank slot. -/
theorem txrom_prg_storeb_spec_witness :
    ({ TxRom.new romTx with bank_select := 6 } : TxRom).prg_ram.length =
      8192 ∧
    (0x8000 : Nat) ≤ 0x8001 ∧ (0x8001 : Nat) < 0xa000 ∧
    (0x8001 : Nat) % 2 = 1 ∧
    ({ TxRom.new romTx with bank_select := 6 } : TxRom).bank_select &&& 7 =
      6 ∧
    ({ TxRom.new romTx with bank_select := 6 } : TxRom).prg_storeb 0x8001 5 =
      some { ({ TxRom.new romTx with bank_select := 6 } : TxRom) with
        prg_banks :=
          (5, ({ TxRom.new romTx with bank_select := 6 } : TxRom).prg_banks.2) } := by
  refine ⟨tx_new_prg_ram_length romTx, by omega, by omega, by norm_num,
    by decide, ?_⟩
  exact ((txrom_prg_storeb_spec { TxRom.new romTx with bank_select := 6 }
    0x8001 5 (tx_new_prg_ram_length romTx)).2.2.2.1 (by omega) (by omega)
    (by norm_num)).2.2.2.2.2.2.1 (by decide)

/-- C7: TxROM `prg_loadb` reads 0 below $6000; $E000-$FFFF always resolves
to the last 8 KB bank (bank count - 1) whatever the registers hold;
$C000-$DFFF resolves to bank count - 2 in swappable-at-8000 mode and
$8000-$9FFF resolves to bank count - 2 in swappable-at-C000 mode,
regardless of the prg_banks slots; $A000-$BFFF always uses prg_banks[1]. -/
theorem txrom_fixed_banks (t : TxRom) (addr : Nat) :
    (addr < 0x6000 → t.prg_loadb addr = some 0) ∧
    (0xe000 ≤ addr → 1 ≤ t.prg_bank_count →
      t.prg_loadb addr =
        t.rom.prg[(t.prg_bank_count - 1) * 8192 + (addr &&& 0x1fff)]?) ∧
    (0xc000 ≤ addr → addr < 0xe000 →
      TxBankSelect.prg_bank_mode t.bank_select = .Swappable8000 →
      2 ≤ t.prg_bank_count →
      t.prg_loadb addr =
        t.rom.prg[(t.prg_bank_count - 2) * 8192 + (addr &&& 0x1fff)]?) ∧
    (0x8000 ≤ addr → addr < 0xa000 →
      TxBankSelect.prg_bank_mode t.bank_select = .SwappableC000 →
      2 ≤ t.prg_bank_count →
      t.prg_loadb addr =
        t.rom.prg[(t.prg_bank_count - 2) * 8192 + (addr &&& 0x1fff)]?) ∧
    (0xa000 ≤ addr → addr < 0xc000 →
      t.prg_loadb addr =
        t.rom.prg[t.prg_banks.2 * 8192 + (addr &&& 0x1fff)]?) := by
  have hlt : t.prg_bank_count < 256 := by
    unfold TxRom.prg_bank_count
    exact Nat.mod_lt _ (by norm_num)
  refine ⟨?_, ?_, ?_, ?_, ?_⟩
  · intro h
    rw [TxRom.prg_loadb, if_pos h]
  · intro h1 hc
    have hm1 : (t.prg_bank_count + 255) % 256 = t.prg_bank_count - 1 := by
      omega
    rw [TxRom.prg_loadb, if_neg (by omega), if_neg (by omega),
      if_neg (by omega), if_neg (by omega), if_neg (by omega), hm1, lor_8192]
  · intro h1 h2 hm hc
    have hm2 : (t.prg_bank_count + 254) % 256 = t.prg_bank_count - 2 := by
      omega
    rw [TxRom.prg_loadb, if_neg (by omega), if_neg (by omega),
      if_neg (by omega), if_neg (by omega), if_pos h2, hm]
    show t.rom.prg[(((t.prg_bank_count + 254) % 256) * 8192) |||
      (addr &&& 0x1fff)]? = _
    rw [hm2, lor_8192]
  · intro h1 h2 hm hc
    have hm2 : (t.prg_bank_count + 254) % 256 = t.prg_bank_count - 2 := by
      omega
    rw [TxRom.prg_loadb, if_neg (by omega), if_neg (by omega),
      if_pos h2, hm]
    show t.rom.prg[(((t.prg_bank_count + 254) % 256) * 8192) |||
      (addr &&& 0x1fff)]? = _
    rw [hm2, lor_8192]
  · intro h1 h2
    rw [TxRom.prg_loadb, if_neg (by omega), if_neg (by omega),
      if_neg (by omega), if_pos h2, lor_8192]

/-- Witness for C7: on the fresh two-bank mapper-4 chip, $E000 reads the
last bank and $C000 (swappable-at-8000 mode) reads bank count - 2. -/
theorem txrom_fixed_banks_witness :
    (1 : Nat) ≤ (TxRom.new romTx).prg_bank_count ∧
    (2 : Nat) ≤ (TxRom.new romTx).prg_bank_count ∧
    TxBankSelect.prg_bank_mode (TxRom.new romTx).bank_select =
      .Swappable8000 ∧
    (TxRom.new romTx).prg_loadb 0xe000 =
      (TxRom.new romTx).rom.prg[((TxRom.new romTx).prg_bank_count - 1) *
        8192 + (0xe000 &&& 0x1fff)]? ∧
    (TxRom.new romTx).prg_loadb 0xc000 =
      (TxRom.new romTx).rom.prg[((TxRom.new romTx).prg_bank_count - 2) *
        8192 + (0xc000 &&& 0x1fff)]? := by
  refine ⟨by decide, by decide, by decide, ?_, ?_⟩
  · exact (txrom_fixed_banks (TxRom.new romTx) 0xe000).2.1 (by omega)
      (by decide)
  · exact (txrom_fixed_banks (TxRom.new romTx) 0xc000).2.2.1 (by omega)
      (by omega) (by decide) (by decide)

/-- C9: the factory builds the NROM chip for mapper id 0, the SxROM chip
for id 1 (ctrl = 3 << 2 so PRG mode is fix-last and mirroring/CHR bits 0,
all other registers 0, count and accumulator 0, RAMs zero-filled), the
TxROM chip for id 4 (bank select 0, all slots 0, PRG-RAM zero-filled),
and fails with "unsupported mapper" for every other id. -/
theorem with_mapper_spec (rom : Rom) :
    (rom.mapper = 0 → with_mapper rom = .ok (.nrom ⟨rom⟩)) ∧
    (rom.mapper = 1 →
      with_mapper rom = .ok (.sxrom (SxRom.new rom)) ∧
      (SxRom.new rom).ctrl = 3 <<< 2 ∧
      SxCtrl.prg_rom_mode (SxRom.new rom).ctrl = .FixLastBank ∧
      (SxRom.new rom).ctrl &&& 3 = 0 ∧
      SxCtrl.chr_rom_mode (SxRom.new rom).ctrl = .Switch8K ∧
      (SxRom.new rom).chr_bank_0 = 0 ∧
      (SxRom.new rom).chr_bank_1 = 0 ∧
      (SxRom.new rom).prg_bank = 0 ∧
      (SxRom.new rom).write_count = 0 ∧
      (SxRom.new rom).accum = 0 ∧
      (SxRom.new rom).prg_ram = List.replicate 8192 0 ∧
      (SxRom.new rom).chr_ram = List.replicate 8192 0) ∧
    (rom.mapper = 4 →
      with_mapper rom = .ok (.txrom (TxRom.new rom)) ∧
      (TxRom.new rom).bank_select = 0 ∧
      (TxRom.new rom).chr_banks_2k = (0, 0) ∧
      (TxRom.new rom).chr_banks_1k = (0, 0, 0, 0) ∧
      (TxRom.new rom).prg_banks = (0, 0) ∧
      (TxRom.new rom).prg_ram = List.replicate 8192 0) ∧
    (rom.mapper ≠ 0 → rom.mapper ≠ 1 → rom.mapper ≠ 4 →
      with_mapper rom = .error "unsupported mapper") := by
  refine ⟨?_, ?_, ?_, ?_⟩
  · intro h
    unfold with_mapper
    rw [h]
  · intro h
    exact ⟨by unfold with_mapper; rw [h], rfl,
      by show SxCtrl.prg_rom_mode (3 <<< 2) = .FixLastBank; decide,
      by show (3 <<< 2 : Nat) &&& 3 = 0; decide,
      by show SxCtrl.chr_rom_mode (3 <<< 2) = .Switch8K; decide,
      rfl, rfl, rfl, rfl, rfl, rfl, rfl⟩
  · intro h
    exact ⟨by unfold with_mapper; rw [h], rfl, rfl, rfl, rfl, rfl⟩
  · intro h0 h1 h4
    unfold with_mapper
    split <;> simp_all

/-- Witness for C9 at concrete ROMs with mapper ids 0, 1, 4 and 99. -/
theorem with_mapper_spec_witness :
    rom16.mapper = 0 ∧ romSx.mapper = 1 ∧ romTx.mapper = 4 ∧
    rom99.mapper ≠ 0 ∧ rom99.mapper ≠ 1 ∧ rom99.mapper ≠ 4 ∧
    with_mapper rom16 = .ok (.nrom ⟨rom16⟩) ∧
    with_mapper romSx = .ok (.sxrom (SxRom.new romSx)) ∧
    with_mapper romTx = .ok (.txrom (TxRom.new romTx)) ∧
    with_mapper rom99 = .error "unsupported mapper" := by
  refine ⟨rfl, rfl, rfl, by decide, by decide, by decide, ?_, ?_, ?_, ?_⟩
  · exact (with_mapper_spec rom16).1 rfl
  · exact ((with_mapper_spec romSx).2.1 rfl).1
  · exact ((with_mapper_spec romTx).2.2.1 rfl).1
  · exact (with_mapper_spec rom99).2.2.2 (by decide) (by decide) (by decide)

end Mapper
